import Mathlib

/-!
Verification of the outline-extraction and context-generation subsystem of
llm-context (source files: `context_generator.py`, `cmd_pipeline.py`,
`project_setup.py`).

Pure functions of the source are embedded as Lean functions.  Components of
the repository that are referenced but whose code is not available
(`to_language`, `generate_outlines`, the language parsers, `safe_read_file`,
`PathConverter`, `FileSelector`, `Toml`) are either taken as explicit
function parameters or modelled from the specification; every such
definition carries a doc comment saying so.  `random.sample` is modelled
relationally: `IsSample` characterises exactly the lists the Python call can
return.
-/

namespace LlmCtx

/-! ### String helpers (kernel-reducible stand-ins for Python string ops) -/

/-- Chars strictly after the last dot of the list, or `none` when no dot
occurs.  Helper for the file-extension computation. -/
def suffixChars : List Char → Option (List Char)
  | [] => none
  | c :: rest =>
    match suffixChars rest with
    | some s => some s
    | none => if c = '.' then some rest else none

/-- Modelled from the spec: the filename-suffix computation used by the
language registry (`Path(...).suffix` in Python): the dot plus everything
after the last dot, or `""` when the name has no dot. -/
def suffixOf (p : String) : String :=
  match suffixChars p.data with
  | none => ""
  | some s => String.mk ('.' :: s)

/-- Character-wise lowercase of a string (Python `str.lower` restricted to
ASCII, which is all that file extensions use). -/
def lowerStr (s : String) : String := String.mk (s.data.map Char.toLower)

/-- Boolean lexicographic comparison of char lists, mirroring Python string
comparison as used by `sorted`. -/
def charsLe : List Char → List Char → Bool
  | [], _ => true
  | _ :: _, [] => false
  | a :: as, b :: bs => if a < b then true else if b < a then false else charsLe as bs

/-- Lexicographic `≤` on strings. -/
def strLe (a b : String) : Bool := charsLe a.data b.data

/-- Insert an element into a list in front of the first element it compares
`le` to: the step function of insertion sort. -/
def pyInsert (le : α → α → Bool) (x : α) : List α → List α
  | [] => [x]
  | y :: ys => if le x y then x :: y :: ys else y :: pyInsert le x ys

/-- Insertion sort, modelling Python `sorted`. -/
def pySorted (le : α → α → Bool) (l : List α) : List α := l.foldr (pyInsert le) []

/-- Duplicate removal, modelling conversion of a Python list to a `set`
(the resulting order is irrelevant because the sets involved are sorted
immediately afterwards). -/
def pyDedup [DecidableEq α] : List α → List α
  | [] => []
  | a :: l => if a ∈ l then pyDedup l else a :: pyDedup l

/-! ### Language resolver -/

/-- Modelled from the spec: `to_language`
(`llm_context.highlighter.language_mapping`, not present in the available
source; its caller is `context_generator.py:88`).  Spec §4.1: a pure,
deterministic mapping from the filename suffix, compared case-insensitively
against a fixed registry of extension-to-tag entries, to an optional
language tag; an unknown suffix yields no tag. -/
def to_language (registry : List (String × String)) (path : String) : Option String :=
  registry.lookup (lowerStr (suffixOf path))

/-- Python truthiness of an optional string, as used by
`if to_language(f)` at `context_generator.py:88`: `None` and `""` are
falsy. -/
def pyTruthy : Option String → Bool
  | none => false
  | some s => !(s == "")

/-! ### Data model (spec §3) -/

/-- `Source` from `llm_context.highlighter.parser` as used at
`context_generator.py:57`: a relative path paired with raw file content
(the spec's SourceUnit). -/
structure Source where
  rel : String
  content : String
deriving DecidableEq

/-- The spec's OutlineRecord: relative path plus rendered outline text. -/
structure OutlineRecord where
  path : String
  text : String
deriving DecidableEq

/-- Declaration kinds of the spec's data model. -/
inductive DeclKind
  | module
  | cls
  | function
  | method
  | field
  | constant
deriving DecidableEq

/-- The spec's Declaration value. -/
structure Declaration where
  kind : DeclKind
  name : String
  signature : String
  startLine : Nat
  endLine : Nat
  depth : Nat
  docFirstLine : Option String
deriving DecidableEq

/-! ### Declaration parser (spec §4.2, modelled) -/

/-- Modelled from the spec: the lexical classification a language adapter
assigns to each successive piece of a file while scanning it: a piece that
yields a declaration, a neutral piece, or a piece at which the adapter
detects malformed syntax. -/
inductive LineEvent
  | decl (d : Declaration)
  | plain
  | malformed
deriving DecidableEq

/-- The declaration carried by an event, if any. -/
def declOf : LineEvent → Option Declaration
  | LineEvent.decl d => some d
  | LineEvent.plain => none
  | LineEvent.malformed => none

/-- Modelled from the spec: a DeclarationParser adapter
(`llm_context.highlighter`, not present in the available source).  Spec
§4.2: it scans the file in order collecting declarations and, on
encountering malformed syntax partway through, returns the declarations
successfully identified up to the failure point rather than discarding the
whole file. -/
def parseDeclarations : List LineEvent → List Declaration
  | [] => []
  | LineEvent.decl d :: rest => d :: parseDeclarations rest
  | LineEvent.plain :: rest => parseDeclarations rest
  | LineEvent.malformed :: _ => []

/-! ### Outline engine (spec §4.4, modelled) -/

/-- Modelled from the spec: `generate_outlines`
(`llm_context.highlighter.outliner`, not present in the available source;
its caller is `context_generator.py:61`).  Spec §4.4: one stateless pass
per file, Resolve → Parse → Format → Emit; a file whose path resolves to no
tag is excluded entirely; supported files each emit one record, in input
order.  The per-language parser `P` and the formatter `F` are explicit
parameters. -/
def generate_outlines (registry : List (String × String))
    (P : String → String → List Declaration)
    (F : String → List Declaration → String)
    (sources : List Source) : List OutlineRecord :=
  sources.filterMap fun s =>
    (to_language registry s.rel).map fun tag =>
      OutlineRecord.mk s.rel (F s.rel (P tag s.content))

/-- The batch-level fatal error of spec §7. -/
inductive BatchError
  | invalidBatchInput
deriving DecidableEq

/-- Modelled from the spec: the OutlineEngine boundary (spec §4.4, §7).  A
structurally invalid batch (`none`, i.e. null where a list is required) is
rejected up front with `InvalidBatchInput` before any per-file processing;
a valid batch always yields a record list. -/
def run_engine (registry : List (String × String))
    (P : String → String → List Declaration)
    (F : String → List Declaration → String)
    (batch : Option (List Source)) : Except BatchError (List OutlineRecord) :=
  match batch with
  | none => Except.error BatchError.invalidBatchInput
  | some sources => Except.ok (generate_outlines registry P F sources)

/-! ### ContextGenerator / ContextCollector (`context_generator.py`) -/

/-- The outline-file filter of `ContextGenerator.create`
(`context_generator.py:88`):
`[f for f in sel_files.outline_files if to_language(f)]`. -/
def outline_rel (registry : List (String × String)) (outline_files : List String) :
    List String :=
  outline_files.filter fun f => pyTruthy (to_language registry f)

/-- A rendered file record, `{"path": ..., "content": ...}` as built by
`ContextCollector.files` (`context_generator.py:46`). -/
structure FileRec where
  path : String
  content : String
deriving DecidableEq

/-- `ContextCollector.files` (`context_generator.py:46-52`): absolute paths
are computed by mapping the converter over the relative paths, each
relative path is zipped with its own absolute path, and a record is kept
exactly when `safe_read_file` succeeds.  `read` stands for
`safe_read_file` and `toAbs` for `PathConverter.to_absolute` (both outside
the available source). -/
def ContextCollector.files (read : String → Option String) (toAbs : String → String)
    (rel_paths : List String) : List FileRec :=
  (rel_paths.zip (rel_paths.map toAbs)).filterMap fun pr =>
    (read pr.2).map fun c => FileRec.mk pr.1 c

/-- The `source_set` of `ContextCollector.outlines`
(`context_generator.py:56-60`): one `Source` per relative path whose
content could be read, in input order. -/
def ContextCollector.source_set (read : String → Option String) (toAbs : String → String)
    (rel_paths : List String) : List Source :=
  (rel_paths.zip (rel_paths.map toAbs)).filterMap fun pr =>
    (read pr.2).map fun c => Source.mk pr.1 c

/-- `ContextCollector.outlines` (`context_generator.py:54-61`): build the
source set, then hand it to `generate_outlines`. -/
def ContextCollector.outlines (read : String → Option String) (toAbs : String → String)
    (registry : List (String × String))
    (P : String → String → List Declaration)
    (F : String → List Declaration → String)
    (rel_paths : List String) : List OutlineRecord :=
  generate_outlines registry P F (ContextCollector.source_set read toAbs rel_paths)

/-- `incomplete_files` of `ContextCollector.sample_file_abs`
(`context_generator.py:42-43`): `sorted(list(all_abs - set(full_abs)))`,
where `all_abs` is the set of project files reported by `FileSelector`. -/
def incomplete_files (all_abs full_abs : List String) : List String :=
  pySorted strLe (pyDedup (all_abs.filter fun p => decide (p ∉ full_abs)))

/-- The exact possible return values of Python
`random.sample(population, k)` on a duplicate-free population: a
duplicate-free list of `k` elements of the population, in any order. -/
def IsSample (pop : List String) (k : Nat) (out : List String) : Prop :=
  out.length = k ∧ out.Nodup ∧ ∀ x ∈ out, x ∈ pop

instance (pop : List String) (k : Nat) (out : List String) :
    Decidable (IsSample pop k out) := by
  unfold IsSample; infer_instance

/-- `ContextCollector.sample_file_abs` (`context_generator.py:41-44`),
relationally: `out` is a possible return value exactly when it is a sample
of size `min 2 (number of incomplete files)` from the sorted incomplete
files. -/
def sample_file_abs_spec (all_abs full_abs out : List String) : Prop :=
  IsSample (incomplete_files all_abs full_abs)
    (min 2 (incomplete_files all_abs full_abs).length) out

instance (all_abs full_abs out : List String) :
    Decidable (sample_file_abs_spec all_abs full_abs out) := by
  unfold sample_file_abs_spec; infer_instance

/-- The template context dict built by `ContextGenerator.context`
(`context_generator.py:111-122`), with one field per dict key. -/
structure ContextDict where
  project_name : String
  folder_structure_diagram : String
  files : List FileRec
  highlights : List OutlineRecord
  sample_requested_files : List String
  prompt : Option String
deriving DecidableEq

/-- `ContextGenerator.context` (`context_generator.py:106-123`) up to
template rendering: the context dict assembled from the collector calls.
`fsd` stands for the external `get_annotated_fsd` result, `toRel` for
`PathConverter.to_relative`, and `sample_abs` for the value returned by the
`random.sample` call inside `sample_file_abs`. -/
def context_dict (registry : List (String × String))
    (P : String → String → List Declaration)
    (F : String → List Declaration → String)
    (read : String → Option String) (toAbs toRel : String → String)
    (fsd project_name : String) (prompt : Option String)
    (full_rel outline_paths : List String)
    (sample_abs : List String) : ContextDict :=
  ContextDict.mk project_name fsd
    (ContextCollector.files read toAbs full_rel)
    (ContextCollector.outlines read toAbs registry P F outline_paths)
    (sample_abs.map toRel)
    prompt

/-! ### Command pipeline (`cmd_pipeline.py`) -/

/-- A Python exception reaching a pipeline wrapper: either the library's
`LLMContextError` or any other `Exception` subclass.  (Signals deriving
only from `BaseException`, such as a cancellation, are outside this type,
matching the spec's cancellation carve-out.) -/
inductive PyExc
  | llmContextError (message : String)
  | other (message : String)
deriving DecidableEq

/-- `str(e)` of an exception. -/
def excMessage : PyExc → String
  | PyExc.llmContextError m => m
  | PyExc.other m => m

/-- `ExecutionResult` (`cmd_pipeline.py:14-17`), keeping the `content`
field; the environment handle is external state. -/
structure ExecutionResult where
  content : Option String
deriving DecidableEq

/-- `with_logging` (`cmd_pipeline.py:30-40`) applied to the outcome of the
wrapped call: an exception is caught, `Error: {str(e)}` is logged, and
`ExecutionResult(None, env)` is returned; a normal result passes through.
The second component is the list of log lines emitted. -/
def with_logging (outcome : Except PyExc ExecutionResult) :
    ExecutionResult × List String :=
  match outcome with
  | Except.ok r => (r, [])
  | Except.error e => (ExecutionResult.mk none, ["Error: " ++ excMessage e])

/-- `with_error` (`cmd_pipeline.py:67-78`) applied to the outcome of the
wrapped call: an `LLMContextError` logs `Error: {e.message}`, any other
exception logs `An unexpected error occurred: {str(e)}`; nothing is
re-raised and the wrapper returns `None` (here `Unit`). -/
def with_error (outcome : Except PyExc Unit) : Unit × List String :=
  match outcome with
  | Except.ok _ => ((), [])
  | Except.error (PyExc.llmContextError m) => ((), ["Error: " ++ m])
  | Except.error (PyExc.other m) => ((), ["An unexpected error occurred: " ++ m])

/-! ### Project setup (`project_setup.py`) -/

/-- A file system as a partial map from path to file content.  `none`
means the path does not exist. -/
def FS : Type := String → Option String

/-- Write `v` at path `p`. -/
def fsWrite (p v : String) (fs : FS) : FS :=
  fun q => if q = p then some v else fs q

/-- Write `v` at `p` only when `p` does not exist yet: the
`if not path.exists(): path.write_text(...)` pattern shared by
`_create_curr_ctx_file`, `_create_project_notes_file` and
`_create_user_notes_file`. -/
def condWrite (p v : String) (fs : FS) : FS :=
  if (fs p).isNone then fsWrite p v fs else fs

/-- The paths a `ProjectLayout` designates.  The layout type itself lives
outside the available source (`llm_context.profile`); only the paths that
`ProjectSetup` touches are modelled.  `template_dest_paths` are the
destinations `_update_templates_if_needed` copies into. -/
structure ProjectLayout where
  config_path : String
  state_path : String
  state_store_path : String
  project_notes_path : String
  user_notes_path : String
  prompt_dest_path : String
  template_dest_paths : List String

/-- Modelled from the spec: the serialized form `Toml.save` (not in the
available source) gives the default selections store
`{"selections": \x7b\x7d}` written by `_create_curr_ctx_file`
(`project_setup.py:77`). -/
def selections_default : String := "selections-empty-toml"

/-- Modelled from the spec: the serialized default config written by
`_create_config_file` (`project_setup.py:109`). -/
def config_default : String := "config-default-toml"

/-- Modelled from the spec: the serialized fresh `ToolConstants` written by
`create_state_file` (`project_setup.py:87`). -/
def state_new_default : String := "state-new-toml"

/-- The default project-notes content of `_create_project_notes_file`
(`project_setup.py:92-96`). -/
def project_notes_default : String :=
  "## Project Notes\n\n" ++
  "Add project-specific notes, documentation and guidelines here.\n" ++
  "This file is stored in the project repository.\n"

/-- The default user-notes content of `_create_user_notes_file`
(`project_setup.py:102-106`). -/
def user_notes_default : String :=
  "## User Notes\n\n" ++
  "Add any personal notes or reminders about this or other projects here.\n" ++
  "This file is private and stored in your user config directory.\n"

namespace ProjectSetup

/-- `_create_or_update_config_file` (`project_setup.py:71-73`): write the
default config when the config file is absent or the tool constants demand
an update. -/
def create_or_update_config_file (needsUpdate : Bool) (L : ProjectLayout) (fs : FS) : FS :=
  if (fs L.config_path).isNone || needsUpdate then fsWrite L.config_path config_default fs
  else fs

/-- `_create_curr_ctx_file` (`project_setup.py:75-77`). -/
def create_curr_ctx_file (L : ProjectLayout) (fs : FS) : FS :=
  condWrite L.state_store_path selections_default fs

/-- `_update_templates_if_needed` (`project_setup.py:79-84`): when an
update is needed, copy every configured template to its destination.
`tmpl` stands for `resources.read_text(lc_resources, ·)`. -/
def update_templates_if_needed (needsUpdate : Bool) (tmpl : String → String)
    (L : ProjectLayout) (fs : FS) : FS :=
  if needsUpdate then
    L.template_dest_paths.foldl (fun acc p => fsWrite p (tmpl p) acc) fs
  else fs

/-- `create_state_file` (`project_setup.py:86-87`): unconditionally write a
fresh state file. -/
def create_state_file (L : ProjectLayout) (fs : FS) : FS :=
  fsWrite L.state_path state_new_default fs

/-- The `_copy_template("lc-prompt.md", ...)` call of `initialize`
(`project_setup.py:67`): unconditionally write the prompt template. -/
def copy_prompt_file (tmpl : String → String) (L : ProjectLayout) (fs : FS) : FS :=
  fsWrite L.prompt_dest_path (tmpl "lc-prompt.md") fs

/-- `_create_project_notes_file` (`project_setup.py:89-96`). -/
def create_project_notes_file (L : ProjectLayout) (fs : FS) : FS :=
  condWrite L.project_notes_path project_notes_default fs

/-- `_create_user_notes_file` (`project_setup.py:98-106`). -/
def create_user_notes_file (L : ProjectLayout) (fs : FS) : FS :=
  condWrite L.user_notes_path user_notes_default fs

/-- `ProjectSetup.initialize` (`project_setup.py:62-69`): the seven steps
in source order (the directory-creation calls do not touch file
contents). -/
def initAll (needsUpdate : Bool) (tmpl : String → String) (L : ProjectLayout) (fs : FS) : FS :=
  create_user_notes_file L
    (create_project_notes_file L
      (copy_prompt_file tmpl L
        (create_state_file L
          (update_templates_if_needed needsUpdate tmpl L
            (create_curr_ctx_file L
              (create_or_update_config_file needsUpdate L fs))))))

/-- The paths `initAll` may write regardless of whether they already
exist. -/
def unconditional_paths (L : ProjectLayout) : List String :=
  L.config_path :: L.state_path :: L.prompt_dest_path :: L.template_dest_paths

end ProjectSetup

/-! ### List helper lemmas -/

theorem mem_pyInsert {α : Type} (le : α → α → Bool) (x y : α) (l : List α) :
    y ∈ pyInsert le x l ↔ y = x ∨ y ∈ l := by
  induction l with
  | nil => simp [pyInsert]
  | cons a l ih =>
    cases h : le x a with
    | true => simp [pyInsert, h]
    | false =>
      simp [pyInsert, h, ih]
      tauto

theorem length_pyInsert {α : Type} (le : α → α → Bool) (x : α) (l : List α) :
    (pyInsert le x l).length = l.length + 1 := by
  induction l with
  | nil => simp [pyInsert]
  | cons a l ih =>
    cases h : le x a with
    | true => simp [pyInsert, h]
    | false => simp [pyInsert, h, ih]

theorem mem_pySorted {α : Type} (le : α → α → Bool) (y : α) (l : List α) :
    y ∈ pySorted le l ↔ y ∈ l := by
  induction l with
  | nil => simp [pySorted]
  | cons a l ih =>
    show y ∈ pyInsert le a (pySorted le l) ↔ _
    rw [mem_pyInsert, ih]
    simp

theorem length_pySorted {α : Type} (le : α → α → Bool) (l : List α) :
    (pySorted le l).length = l.length := by
  induction l with
  | nil => simp [pySorted]
  | cons a l ih =>
    show (pyInsert le a (pySorted le l)).length = _
    rw [length_pyInsert, ih]
    simp

theorem mem_pyDedup {α : Type} [DecidableEq α] (y : α) (l : List α) :
    y ∈ pyDedup l ↔ y ∈ l := by
  induction l with
  | nil => simp [pyDedup]
  | cons a l ih =>
    by_cases h : a ∈ l
    · simp only [pyDedup, if_pos h, ih, List.mem_cons]
      constructor
      · exact Or.inr
      · rintro (rfl | hy)
        · exact h
        · exact hy
    · simp [pyDedup, if_neg h, ih]

theorem zip_self_map {α β : Type} (f : α → β) (l : List α) :
    l.zip (l.map f) = l.map fun a => (a, f a) := by
  induction l with
  | nil => rfl
  | cons a l ih => simp [ih]

theorem filterMap_proj_sublist {α β γ : Type} (f : α → Option β) (proj : β → γ)
    (key : α → γ) (h : ∀ a b, f a = some b → proj b = key a) (l : List α) :
    List.Sublist ((l.filterMap f).map proj) (l.map key) := by
  induction l with
  | nil => simp
  | cons a l ih =>
    cases hfa : f a with
    | none =>
      rw [List.filterMap_cons_none hfa, List.map_cons]
      exact ih.cons _
    | some b =>
      rw [List.filterMap_cons_some hfa, List.map_cons, List.map_cons, h a b hfa]
      exact ih.cons₂ _

theorem filterMap_proj_eq {α β γ : Type} (f : α → Option β) (proj : β → γ)
    (key : α → γ) (h : ∀ a b, f a = some b → proj b = key a) (l : List α) :
    (l.filterMap f).map proj = (l.filter fun a => (f a).isSome).map key := by
  induction l with
  | nil => simp
  | cons a l ih =>
    cases hfa : f a with
    | none =>
      rw [List.filterMap_cons_none hfa]
      have : ((f a).isSome = true) = False := by simp [hfa]
      simp only [List.filter_cons, hfa]
      simpa using ih
    | some b =>
      rw [List.filterMap_cons_some hfa, List.map_cons, h a b hfa]
      have : (f a).isSome = true := by simp [hfa]
      simp only [List.filter_cons, hfa]
      simp only [Option.isSome_some, if_pos trivial, List.map_cons]
      rw [ih]

theorem countP_filterMap_proj {α β γ : Type} [BEq γ] [LawfulBEq γ]
    (f : α → Option β) (keyb : β → γ) (keya : α → γ) (sup : γ → Bool)
    (h : ∀ a b, f a = some b → keyb b = keya a)
    (hs : ∀ a, (f a).isSome = sup (keya a))
    (p : γ) (l : List α) :
    (l.filterMap f).countP (fun b => keyb b == p)
      = if sup p then l.countP (fun a => keya a == p) else 0 := by
  induction l with
  | nil => simp
  | cons a l ih =>
    cases hfa : f a with
    | none =>
      have hsupa : sup (keya a) = false := by rw [← hs]; simp [hfa]
      rw [List.filterMap_cons_none hfa, List.countP_cons, ih]
      by_cases hap : keya a = p
      · rw [← hap, hsupa]
        simp
      · have : (keya a == p) = false := by simp [hap]
        simp [this]
    | some b =>
      have hb : keyb b = keya a := h a b hfa
      have hsupa : sup (keya a) = true := by rw [← hs]; simp [hfa]
      rw [List.filterMap_cons_some hfa, List.countP_cons, List.countP_cons, hb, ih]
      by_cases hap : keya a = p
      · rw [← hap, hsupa]
        simp
      · have : (keya a == p) = false := by simp [hap]
        simp [this]

/-! ### Normalization lemmas for the collector -/

theorem source_set_eq (read : String → Option String) (toAbs : String → String)
    (rel_paths : List String) :
    ContextCollector.source_set read toAbs rel_paths
      = rel_paths.filterMap fun r => (read (toAbs r)).map fun c => Source.mk r c := by
  unfold ContextCollector.source_set
  rw [zip_self_map, List.filterMap_map]
  rfl

theorem files_eq (read : String → Option String) (toAbs : String → String)
    (rel_paths : List String) :
    ContextCollector.files read toAbs rel_paths
      = rel_paths.filterMap fun r => (read (toAbs r)).map fun c => FileRec.mk r c := by
  unfold ContextCollector.files
  rw [zip_self_map, List.filterMap_map]
  rfl

theorem generate_outlines_path_of_mem (registry : List (String × String))
    (P : String → String → List Declaration) (F : String → List Declaration → String)
    (sources : List Source) (r : OutlineRecord)
    (hr : r ∈ generate_outlines registry P F sources) :
    ∃ s ∈ sources, r.path = s.rel ∧ (to_language registry s.rel).isSome = true := by
  unfold generate_outlines at hr
  rcases List.mem_filterMap.mp hr with ⟨s, hs, hfs⟩
  rcases Option.map_eq_some'.mp hfs with ⟨tag, htag, hmk⟩
  exact ⟨s, hs, by rw [← hmk], by simp [htag]⟩

theorem generate_outlines_paths (registry : List (String × String))
    (P : String → String → List Declaration) (F : String → List Declaration → String)
    (sources : List Source) :
    (generate_outlines registry P F sources).map OutlineRecord.path
      = (sources.filter fun s => (to_language registry s.rel).isSome).map Source.rel := by
  unfold generate_outlines
  have heq := filterMap_proj_eq
    (fun s : Source => (to_language registry s.rel).map fun tag =>
      OutlineRecord.mk s.rel (F s.rel (P tag s.content)))
    OutlineRecord.path Source.rel
    (by
      intro s r hsr
      rcases Option.map_eq_some'.mp hsr with ⟨tag, _, hmk⟩
      subst hmk
      rfl) sources
  simpa [Option.isSome_map] using heq

/-! ### Claim theorems -/

/-- Claim C1: a file whose path resolves to no language tag is excluded
entirely from outline processing: it does not appear in the filtered
outline file list of `ContextGenerator.create`, no outline record is ever
produced for it by the engine, and the exclusion is silent (the engine
returns an ordinary record list, not an error). -/
theorem claim_C1 (registry : List (String × String))
    (P : String → String → List Declaration) (F : String → List Declaration → String)
    (outline_files : List String) (sources : List Source) (p : String)
    (h : to_language registry p = none) :
    p ∉ outline_rel registry outline_files ∧
    (∀ r ∈ generate_outlines registry P F sources, r.path ≠ p) ∧
    run_engine registry P F (some sources)
      = Except.ok (generate_outlines registry P F sources) := by
  refine ⟨?_, ?_, rfl⟩
  · intro hmem
    have := (List.mem_filter.mp hmem).2
    rw [h] at this
    simp [pyTruthy] at this
  · intro r hr hrp
    rcases generate_outlines_path_of_mem registry P F sources r hr with ⟨s, _, hpath, hsome⟩
    rw [hrp] at hpath
    rw [← hpath, h] at hsome
    simp at hsome

/-- Claim C1 witness: with registry `[(".py", "python")]` the path
`"b.xyz"` (spec Scenario B) resolves to no tag and is excluded from the
outline file list. -/
theorem claim_C1_witness :
    to_language [(".py", "python")] "b.xyz" = none ∧
    "b.xyz" ∉ outline_rel [(".py", "python")] ["b.xyz", "a.py"] :=
  ⟨by decide,
    (claim_C1 [(".py", "python")] (fun _ _ => []) (fun _ _ => "")
      ["b.xyz", "a.py"] [Source.mk "b.xyz" "whatever"] "b.xyz" (by decide)).1⟩

/-- Claim C2: outline records appear in the same relative order as the
corresponding inputs: the language filter of `ContextGenerator.create`
yields a sublist of the input file list, the engine's record paths are
exactly the supported input paths in input order, and the end-to-end
`ContextCollector.outlines` record paths form a sublist of the input
relative-path list. -/
theorem claim_C2 (registry : List (String × String))
    (P : String → String → List Declaration) (F : String → List Declaration → String)
    (read : String → Option String) (toAbs : String → String)
    (outline_files rel_paths : List String) (sources : List Source) :
    List.Sublist (outline_rel registry outline_files) outline_files ∧
    (generate_outlines registry P F sources).map OutlineRecord.path
      = (sources.filter fun s => (to_language registry s.rel).isSome).map Source.rel ∧
    List.Sublist
      ((ContextCollector.outlines read toAbs registry P F rel_paths).map OutlineRecord.path)
      rel_paths := by
  refine ⟨List.filter_sublist _, generate_outlines_paths registry P F sources, ?_⟩
  unfold ContextCollector.outlines generate_outlines
  have h1 : List.Sublist
      ((((ContextCollector.source_set read toAbs rel_paths).filterMap fun s =>
        (to_language registry s.rel).map fun tag =>
          OutlineRecord.mk s.rel (F s.rel (P tag s.content))).map OutlineRecord.path))
      ((ContextCollector.source_set read toAbs rel_paths).map Source.rel) := by
    refine filterMap_proj_sublist _ _ _ ?_ _
    intro s r hsr
    rcases Option.map_eq_some'.mp hsr with ⟨tag, _, hmk⟩
    subst hmk
    rfl
  have h2 : List.Sublist
      ((ContextCollector.source_set read toAbs rel_paths).map Source.rel)
      (rel_paths.map id) := by
    rw [source_set_eq]
    refine filterMap_proj_sublist _ _ _ ?_ _
    intro a s has
    rcases Option.map_eq_some'.mp has with ⟨c, _, hmk⟩
    subst hmk
    rfl
  rw [List.map_id] at h2
  exact h1.trans h2

/-- Claim C4: for every path, the number of outline records carrying that
path equals the number of batch inputs with that path when the path's
language is supported, and zero when it is not: exactly one record per
supported input, no record for unsupported ones. -/
theorem claim_C4 (registry : List (String × String))
    (P : String → String → List Declaration) (F : String → List Declaration → String)
    (sources : List Source) (p : String) :
    (generate_outlines registry P F sources).countP (fun r => r.path == p)
      = if (to_language registry p).isSome
          then sources.countP (fun s => s.rel == p) else 0 := by
  unfold generate_outlines
  refine countP_filterMap_proj _ OutlineRecord.path Source.rel
    (fun q => (to_language registry q).isSome) ?_ ?_ p sources
  · intro s r hsr
    rcases Option.map_eq_some'.mp hsr with ⟨tag, _, hmk⟩
    rw [← hmk]
  · intro s
    simp [Option.isSome_map]

/-- Claim C5: no per-file error escapes the command boundary: whatever
exception the wrapped call raises, `with_logging` catches it, logs a
diagnostic, and returns a result with empty content; `with_error` likewise
catches both `LLMContextError` and any other exception, logs one
diagnostic line, and returns normally; a successful call passes through
`with_logging` untouched with nothing logged. -/
theorem claim_C5 (e : PyExc) (r : ExecutionResult) :
    with_logging (Except.error e) = (ExecutionResult.mk none, ["Error: " ++ excMessage e]) ∧
    with_logging (Except.ok r) = (r, []) ∧
    (with_error (Except.error e)).2.length = 1 ∧
    with_error (Except.ok ()) = ((), []) := by
  cases e <;> exact ⟨rfl, rfl, rfl, rfl⟩

/-- Claim C6: a file whose source is malformed partway through still
yields exactly the declarations identified before the failure point, and
the records the engine produces for every other file of the batch are
unaffected, the batch splitting around the file. -/
theorem claim_C6 (pre rest : List LineEvent) (h : LineEvent.malformed ∉ pre) :
    parseDeclarations (pre ++ LineEvent.malformed :: rest) = pre.filterMap declOf ∧
    ∀ (registry : List (String × String)) (P : String → String → List Declaration)
      (F : String → List Declaration → String) (xs ys : List Source) (s : Source),
      generate_outlines registry P F (xs ++ s :: ys)
        = generate_outlines registry P F xs
            ++ generate_outlines registry P F [s]
            ++ generate_outlines registry P F ys := by
  constructor
  · induction pre with
    | nil => rfl
    | cons ev pre ih =>
      have hev : ev ≠ LineEvent.malformed := fun hc => h (hc ▸ List.mem_cons_self ev pre)
      have hpre : LineEvent.malformed ∉ pre := fun hc => h (List.mem_cons_of_mem ev hc)
      cases ev with
      | decl d => simp [parseDeclarations, declOf, ih hpre]
      | plain => simp [parseDeclarations, declOf, ih hpre]
      | malformed => exact absurd rfl hev
  · intro registry P F xs ys s
    unfold generate_outlines
    rw [List.filterMap_append]
    have : s :: ys = [s] ++ ys := rfl
    rw [this, List.filterMap_append, List.append_assoc]

/-- Claim C6 witness: a concrete file whose third piece is malformed
yields exactly the one declaration found before the failure point. -/
theorem claim_C6_witness :
    LineEvent.malformed ∉
      [LineEvent.decl (Declaration.mk DeclKind.function "foo" "def foo():" 1 2 0 none),
        LineEvent.plain] ∧
    parseDeclarations
        ([LineEvent.decl (Declaration.mk DeclKind.function "foo" "def foo():" 1 2 0 none),
          LineEvent.plain] ++ LineEvent.malformed ::
            [LineEvent.decl (Declaration.mk DeclKind.cls "Bar" "class Bar:" 4 6 0 none)])
      = [Declaration.mk DeclKind.function "foo" "def foo():" 1 2 0 none] :=
  ⟨by decide,
    (claim_C6
      [LineEvent.decl (Declaration.mk DeclKind.function "foo" "def foo():" 1 2 0 none),
        LineEvent.plain]
      [LineEvent.decl (Declaration.mk DeclKind.cls "Bar" "class Bar:" 4 6 0 none)]
      (by decide)).1.trans (by decide)⟩

/-- Claim C7: a structurally invalid batch (null where a list is required)
is rejected with the fatal `InvalidBatchInput` before any per-file
processing, producing no records; every structurally valid batch is
processed without any fatal error. -/
theorem claim_C7 (registry : List (String × String))
    (P : String → String → List Declaration) (F : String → List Declaration → String) :
    run_engine registry P F none = Except.error BatchError.invalidBatchInput ∧
    (∀ records, run_engine registry P F none ≠ Except.ok records) ∧
    ∀ sources, run_engine registry P F (some sources)
      = Except.ok (generate_outlines registry P F sources) :=
  ⟨rfl, fun records h => by simp [run_engine] at h, fun _ => rfl⟩

/-- Claim C8: `ContextCollector.files` returns exactly one record per
input path whose content could be read — paired with that path's own
content, in input order — and silently omits unreadable paths: the record
list is the evident filter-map of the input, every record's content is
what `read` returns for its own path, the record paths form a sublist of
the input, and per-path record counts match readable input occurrences. -/
theorem claim_C8 (read : String → Option String) (toAbs : String → String)
    (rel_paths : List String) :
    ContextCollector.files read toAbs rel_paths
        = rel_paths.filterMap (fun r => (read (toAbs r)).map fun c => FileRec.mk r c) ∧
    (∀ fr ∈ ContextCollector.files read toAbs rel_paths,
      read (toAbs fr.path) = some fr.content) ∧
    List.Sublist ((ContextCollector.files read toAbs rel_paths).map FileRec.path) rel_paths ∧
    ∀ p, (ContextCollector.files read toAbs rel_paths).countP (fun fr => fr.path == p)
      = if (read (toAbs p)).isSome then rel_paths.countP (fun r => r == p) else 0 := by
  refine ⟨files_eq read toAbs rel_paths, ?_, ?_, ?_⟩
  · intro fr hfr
    rw [files_eq] at hfr
    rcases List.mem_filterMap.mp hfr with ⟨a, _, hfa⟩
    rcases Option.map_eq_some'.mp hfa with ⟨c, hread, hmk⟩
    subst hmk
    exact hread
  · rw [files_eq]
    have h := filterMap_proj_sublist
      (fun r => (read (toAbs r)).map fun c => FileRec.mk r c) FileRec.path id
      (by
        intro a fr hfa
        rcases Option.map_eq_some'.mp hfa with ⟨c, _, hmk⟩
        subst hmk
        rfl) rel_paths
    rwa [List.map_id] at h
  · intro p
    rw [files_eq]
    refine countP_filterMap_proj _ FileRec.path id (fun q => (read (toAbs q)).isSome) ?_ ?_ p rel_paths
    · intro a fr hfa
      rcases Option.map_eq_some'.mp hfa with ⟨c, _, hmk⟩
      subst hmk
      rfl
    · intro a
      simp [Option.isSome_map]

theorem mem_incomplete_files (all_abs full_abs : List String) (p : String) :
    p ∈ incomplete_files all_abs full_abs ↔ p ∈ all_abs ∧ p ∉ full_abs := by
  unfold incomplete_files
  rw [mem_pySorted, mem_pyDedup, List.mem_filter]
  simp

/-- Claim C10: any value `sample_file_abs` can return contains at most two
paths, every one of them is a project file that is not fully included, and
when every project file is fully included the result is empty. -/
theorem claim_C10 (all_abs full_abs out : List String)
    (h : sample_file_abs_spec all_abs full_abs out) :
    out.length ≤ 2 ∧
    (∀ p ∈ out, p ∈ all_abs ∧ p ∉ full_abs) ∧
    (incomplete_files all_abs full_abs = [] → out = []) := by
  obtain ⟨hlen, hnodup, hmem⟩ := h
  refine ⟨?_, ?_, ?_⟩
  · rw [hlen]
    exact min_le_left _ _
  · intro p hp
    exact (mem_incomplete_files all_abs full_abs p).mp (hmem p hp)
  · intro hempty
    rw [hempty] at hlen
    simp at hlen
    exact hlen

/-- Claim C10 witness: with project files `["b", "a", "c"]` and fully
included file `"a"`, the outcome `["c", "b"]` is a valid sample and has at
most two elements. -/
theorem claim_C10_witness :
    sample_file_abs_spec ["b", "a", "c"] ["a"] ["c", "b"] ∧
    (["c", "b"] : List String).length ≤ 2 :=
  ⟨by decide, (claim_C10 ["b", "a", "c"] ["a"] ["c", "b"] (by decide)).1⟩

theorem isSample_det_of_small (pop out₁ out₂ : List String)
    (h1 : IsSample pop (min 2 pop.length) out₁)
    (h2 : IsSample pop (min 2 pop.length) out₂)
    (hpop : pop.length ≤ 1) : out₁ = out₂ := by
  obtain ⟨hl1, hn1, hm1⟩ := h1
  obtain ⟨hl2, hn2, hm2⟩ := h2
  rcases Nat.le_one_iff_eq_zero_or_eq_one.mp hpop with h0 | hone
  · rw [h0] at hl1 hl2
    simp at hl1 hl2
    rw [hl1, hl2]
  · rw [hone] at hl1 hl2
    norm_num at hl1 hl2
    rcases List.length_eq_one.mp hone with ⟨x, hx⟩
    rcases List.length_eq_one.mp hl1 with ⟨a, ha⟩
    rcases List.length_eq_one.mp hl2 with ⟨b, hb⟩
    subst hx
    have hax : a = x := by
      have := hm1 a (by rw [ha]; exact List.mem_cons_self a [])
      simpa using this
    have hbx : b = x := by
      have := hm2 b (by rw [hb]; exact List.mem_cons_self b [])
      simpa using this
    rw [ha, hb, hax, hbx]

/-- Claim C3 (amended): the deterministic part of `ContextGenerator.context`:
the `highlights` (outline records), `files` and every other field except
`sample_requested_files` are fixed functions of the input, identical across
any two runs; and whenever at most one candidate file exists for sampling,
even `sample_requested_files` is forced and the whole context output of two
runs on identical input is byte-identical.  (The unamended claim fails
because `sample_requested_files` comes from `random.sample`; see the
counterexample.) -/
theorem claim_C3 (registry : List (String × String))
    (P : String → String → List Declaration) (F : String → List Declaration → String)
    (read : String → Option String) (toAbs toRel : String → String)
    (fsd nm : String) (prompt : Option String)
    (full_rel outline_paths all_abs full_abs s₁ s₂ : List String)
    (h1 : sample_file_abs_spec all_abs full_abs s₁)
    (h2 : sample_file_abs_spec all_abs full_abs s₂) :
    (context_dict registry P F read toAbs toRel fsd nm prompt full_rel
        outline_paths s₁).highlights
      = (context_dict registry P F read toAbs toRel fsd nm prompt full_rel
          outline_paths s₂).highlights ∧
    (context_dict registry P F read toAbs toRel fsd nm prompt full_rel
        outline_paths s₁).files
      = (context_dict registry P F read toAbs toRel fsd nm prompt full_rel
          outline_paths s₂).files ∧
    (context_dict registry P F read toAbs toRel fsd nm prompt full_rel
        outline_paths s₁).folder_structure_diagram
      = (context_dict registry P F read toAbs toRel fsd nm prompt full_rel
          outline_paths s₂).folder_structure_diagram ∧
    ((incomplete_files all_abs full_abs).length ≤ 1 →
      context_dict registry P F read toAbs toRel fsd nm prompt full_rel
          outline_paths s₁
        = context_dict registry P F read toAbs toRel fsd nm prompt full_rel
            outline_paths s₂) := by
  refine ⟨rfl, rfl, rfl, ?_⟩
  intro hsmall
  have hss : s₁ = s₂ := isSample_det_of_small _ _ _ h1 h2 hsmall
  rw [hss]

/-- Claim C3 counterexample: with three candidate files, both
`["a.py", "b.py"]` and `["a.py", "c.py"]` are possible outcomes of the
`random.sample` call inside `sample_file_abs`, and the two resulting
context outputs differ: output generation is not deterministic as the
claim states. -/
theorem claim_C3_counterexample :
    sample_file_abs_spec ["a.py", "b.py", "c.py"] [] ["a.py", "b.py"] ∧
    sample_file_abs_spec ["a.py", "b.py", "c.py"] [] ["a.py", "c.py"] ∧
    context_dict [(".py", "python")] (fun _ _ => []) (fun _ _ => "") (fun _ => none)
        (fun s => s) (fun s => s) "" "proj" none [] [] ["a.py", "b.py"]
      ≠ context_dict [(".py", "python")] (fun _ _ => []) (fun _ _ => "") (fun _ => none)
        (fun s => s) (fun s => s) "" "proj" none [] [] ["a.py", "c.py"] :=
  ⟨by decide, by decide, by decide⟩

/-- Claim C3 witness: with a single candidate file the sample is forced
and two runs agree on the whole context output. -/
theorem claim_C3_witness :
    sample_file_abs_spec ["x"] [] ["x"] ∧
    context_dict [] (fun _ _ => []) (fun _ _ => "") (fun _ => none) (fun s => s)
        (fun s => s) "" "proj" none [] [] ["x"]
      = context_dict [] (fun _ _ => []) (fun _ _ => "") (fun _ => none) (fun s => s)
        (fun s => s) "" "proj" none [] [] ["x"] :=
  ⟨by decide,
    (claim_C3 [] (fun _ _ => []) (fun _ _ => "") (fun _ => none) (fun s => s)
      (fun s => s) "" "proj" none [] [] ["x"] [] ["x"] ["x"]
      (by decide) (by decide)).2.2.2 (by decide)⟩

/-! ### File-system lemmas for `ProjectSetup` -/

theorem fsWrite_self (p v : String) (fs : FS) : fsWrite p v fs p = some v := by
  simp [fsWrite]

theorem fsWrite_ne {q p : String} (h : q ≠ p) (v : String) (fs : FS) :
    fsWrite p v fs q = fs q := by
  simp [fsWrite, h]

theorem condWrite_of_some {fs : FS} {q c : String} (p v : String) (h : fs q = some c) :
    condWrite p v fs q = some c := by
  unfold condWrite
  by_cases hq : q = p
  · subst hq
    rw [if_neg (by simp [h])]
    exact h
  · by_cases hp : (fs p).isNone
    · rw [if_pos hp, fsWrite_ne hq]
      exact h
    · rw [if_neg hp]
      exact h

theorem condWrite_ne {q p : String} (h : q ≠ p) (v : String) (fs : FS) :
    condWrite p v fs q = fs q := by
  unfold condWrite
  by_cases hp : (fs p).isNone
  · rw [if_pos hp, fsWrite_ne h]
  · rw [if_neg hp]

theorem condWrite_none {fs : FS} (p v : String) (h : fs p = none) :
    condWrite p v fs p = some v := by
  unfold condWrite
  rw [if_pos (by simp [h]), fsWrite_self]

theorem foldl_fsWrite_ne {q : String} (tmpl : String → String) (paths : List String)
    (hq : q ∉ paths) : ∀ fs : FS,
    (paths.foldl (fun acc p => fsWrite p (tmpl p) acc) fs) q = fs q := by
  induction paths with
  | nil => intro fs; rfl
  | cons a l ih =>
    intro fs
    have hqa : q ≠ a := fun hc => hq (hc ▸ List.mem_cons_self a l)
    have hql : q ∉ l := fun hc => hq (List.mem_cons_of_mem a hc)
    rw [List.foldl_cons, ih hql, fsWrite_ne hqa]

namespace ProjectSetup

theorem config_step_ne {q : String} (needsUpdate : Bool) (L : ProjectLayout) (fs : FS)
    (hq : q ≠ L.config_path) :
    create_or_update_config_file needsUpdate L fs q = fs q := by
  unfold create_or_update_config_file
  split
  · rw [fsWrite_ne hq]
  · rfl

theorem templates_step_ne {q : String} (needsUpdate : Bool) (tmpl : String → String)
    (L : ProjectLayout) (fs : FS) (hq : q ∉ L.template_dest_paths) :
    update_templates_if_needed needsUpdate tmpl L fs q = fs q := by
  unfold update_templates_if_needed
  split
  · exact foldl_fsWrite_ne tmpl L.template_dest_paths hq fs
  · rfl

theorem initAll_preserves (needsUpdate : Bool) (tmpl : String → String)
    (L : ProjectLayout) (fs : FS) (q c : String)
    (hq : q ∉ unconditional_paths L) (h : fs q = some c) :
    initAll needsUpdate tmpl L fs q = some c := by
  have hqc : q ≠ L.config_path := fun hc => hq (hc ▸ List.mem_cons_self _ _)
  have hqs : q ≠ L.state_path :=
    fun hc => hq (hc ▸ List.mem_cons_of_mem _ (List.mem_cons_self _ _))
  have hqp : q ≠ L.prompt_dest_path :=
    fun hc => hq (hc ▸ List.mem_cons_of_mem _ (List.mem_cons_of_mem _ (List.mem_cons_self _ _)))
  have hqt : q ∉ L.template_dest_paths :=
    fun hc => hq (List.mem_cons_of_mem _ (List.mem_cons_of_mem _ (List.mem_cons_of_mem _ hc)))
  unfold initAll create_user_notes_file create_project_notes_file copy_prompt_file
    create_state_file create_curr_ctx_file
  apply condWrite_of_some
  apply condWrite_of_some
  rw [fsWrite_ne hqp, fsWrite_ne hqs, templates_step_ne _ _ _ _ hqt]
  apply condWrite_of_some
  rw [config_step_ne _ _ _ hqc]
  exact h

end ProjectSetup

/-- Claim C9: `ProjectSetup.initialize` (modelled by `initAll`) never
overwrites an existing selections state-store file, project notes file or
user notes file: provided these three paths are distinct from each other
and from the paths the setup writes unconditionally (config, state,
prompt, templates), an existing file keeps its contents, and each file is
created with its default contents exactly when absent. -/
theorem claim_C9 (needsUpdate : Bool) (tmpl : String → String)
    (L : ProjectLayout) (fs : FS)
    (hs : L.state_store_path ∉ ProjectSetup.unconditional_paths L)
    (hp : L.project_notes_path ∉ ProjectSetup.unconditional_paths L)
    (hps : L.project_notes_path ≠ L.state_store_path)
    (hu : L.user_notes_path ∉ ProjectSetup.unconditional_paths L)
    (hus : L.user_notes_path ≠ L.state_store_path)
    (hup : L.user_notes_path ≠ L.project_notes_path) :
    (∀ c, fs L.state_store_path = some c →
      ProjectSetup.initAll needsUpdate tmpl L fs L.state_store_path = some c) ∧
    (fs L.state_store_path = none →
      ProjectSetup.initAll needsUpdate tmpl L fs L.state_store_path
        = some selections_default) ∧
    (∀ c, fs L.project_notes_path = some c →
      ProjectSetup.initAll needsUpdate tmpl L fs L.project_notes_path = some c) ∧
    (fs L.project_notes_path = none →
      ProjectSetup.initAll needsUpdate tmpl L fs L.project_notes_path
        = some project_notes_default) ∧
    (∀ c, fs L.user_notes_path = some c →
      ProjectSetup.initAll needsUpdate tmpl L fs L.user_notes_path = some c) ∧
    (fs L.user_notes_path = none →
      ProjectSetup.initAll needsUpdate tmpl L fs L.user_notes_path
        = some user_notes_default) := by
  have hsc : L.state_store_path ≠ L.config_path :=
    fun hc => hs (hc ▸ List.mem_cons_self _ _)
  have hss : L.state_store_path ≠ L.state_path :=
    fun hc => hs (hc ▸ List.mem_cons_of_mem _ (List.mem_cons_self _ _))
  have hsp : L.state_store_path ≠ L.prompt_dest_path :=
    fun hc => hs (hc ▸ List.mem_cons_of_mem _ (List.mem_cons_of_mem _ (List.mem_cons_self _ _)))
  have hst : L.state_store_path ∉ L.template_dest_paths :=
    fun hc => hs (List.mem_cons_of_mem _ (List.mem_cons_of_mem _ (List.mem_cons_of_mem _ hc)))
  have hpc : L.project_notes_path ≠ L.config_path :=
    fun hc => hp (hc ▸ List.mem_cons_self _ _)
  have hpsp : L.project_notes_path ≠ L.state_path :=
    fun hc => hp (hc ▸ List.mem_cons_of_mem _ (List.mem_cons_self _ _))
  have hpp : L.project_notes_path ≠ L.prompt_dest_path :=
    fun hc => hp (hc ▸ List.mem_cons_of_mem _ (List.mem_cons_of_mem _ (List.mem_cons_self _ _)))
  have hpt : L.project_notes_path ∉ L.template_dest_paths :=
    fun hc => hp (List.mem_cons_of_mem _ (List.mem_cons_of_mem _ (List.mem_cons_of_mem _ hc)))
  have huc : L.user_notes_path ≠ L.config_path :=
    fun hc => hu (hc ▸ List.mem_cons_self _ _)
  have husp : L.user_notes_path ≠ L.state_path :=
    fun hc => hu (hc ▸ List.mem_cons_of_mem _ (List.mem_cons_self _ _))
  have hupp : L.user_notes_path ≠ L.prompt_dest_path :=
    fun hc => hu (hc ▸ List.mem_cons_of_mem _ (List.mem_cons_of_mem _ (List.mem_cons_self _ _)))
  have hut : L.user_notes_path ∉ L.template_dest_paths :=
    fun hc => hu (List.mem_cons_of_mem _ (List.mem_cons_of_mem _ (List.mem_cons_of_mem _ hc)))
  refine ⟨fun c h => ProjectSetup.initAll_preserves _ _ _ _ _ _ hs h, ?_,
    fun c h => ProjectSetup.initAll_preserves _ _ _ _ _ _ hp h, ?_,
    fun c h => ProjectSetup.initAll_preserves _ _ _ _ _ _ hu h, ?_⟩
  · intro h
    unfold ProjectSetup.initAll ProjectSetup.create_user_notes_file
      ProjectSetup.create_project_notes_file ProjectSetup.copy_prompt_file
      ProjectSetup.create_state_file ProjectSetup.create_curr_ctx_file
    apply condWrite_of_some
    apply condWrite_of_some
    rw [fsWrite_ne hsp, fsWrite_ne hss, ProjectSetup.templates_step_ne _ _ _ _ hst]
    apply condWrite_none
    rw [ProjectSetup.config_step_ne _ _ _ hsc]
    exact h
  · intro h
    unfold ProjectSetup.initAll ProjectSetup.create_user_notes_file
      ProjectSetup.create_project_notes_file ProjectSetup.copy_prompt_file
      ProjectSetup.create_state_file ProjectSetup.create_curr_ctx_file
    apply condWrite_of_some
    apply condWrite_none
    rw [fsWrite_ne hpp, fsWrite_ne hpsp, ProjectSetup.templates_step_ne _ _ _ _ hpt,
      condWrite_ne hps, ProjectSetup.config_step_ne _ _ _ hpc]
    exact h
  · intro h
    unfold ProjectSetup.initAll ProjectSetup.create_user_notes_file
      ProjectSetup.create_project_notes_file ProjectSetup.copy_prompt_file
      ProjectSetup.create_state_file ProjectSetup.create_curr_ctx_file
    apply condWrite_none
    rw [condWrite_ne hup, fsWrite_ne hupp, fsWrite_ne husp,
      ProjectSetup.templates_step_ne _ _ _ _ hut, condWrite_ne hus,
      ProjectSetup.config_step_ne _ _ _ huc]
    exact h

/-- Claim C9 witness: a concrete layout with distinct paths and a file
system where the state store already exists and the notes files do not:
the state store keeps its contents, the notes files are created with
their defaults. -/
theorem claim_C9_witness :
    ((fun q => if q = "store" then some "keep" else none) : FS) "store" = some "keep" ∧
    ProjectSetup.initAll true (fun _ => "T")
        (ProjectLayout.mk "cfg" "state" "store" "pnotes" "unotes" "prompt-dest" ["t1"])
        (fun q => if q = "store" then some "keep" else none) "store" = some "keep" ∧
    ProjectSetup.initAll true (fun _ => "T")
        (ProjectLayout.mk "cfg" "state" "store" "pnotes" "unotes" "prompt-dest" ["t1"])
        (fun q => if q = "store" then some "keep" else none) "pnotes"
      = some project_notes_default ∧
    ProjectSetup.initAll true (fun _ => "T")
        (ProjectLayout.mk "cfg" "state" "store" "pnotes" "unotes" "prompt-dest" ["t1"])
        (fun q => if q = "store" then some "keep" else none) "unotes"
      = some user_notes_default := by
  have h := claim_C9 true (fun _ => "T")
    (ProjectLayout.mk "cfg" "state" "store" "pnotes" "unotes" "prompt-dest" ["t1"])
    (fun q => if q = "store" then some "keep" else none)
    (by decide) (by decide) (by decide) (by decide) (by decide) (by decide)
  exact ⟨by decide, h.1 "keep" (by decide), h.2.2.2.1 (by decide), h.2.2.2.2.2 (by decide)⟩

end LlmCtx
